import Mathlib

/-!
Verification of the LayScience asynchronous job lifecycle and
status-polling protocol.

The developments below shallowly embed two layers of the system:

* the backend job store / orchestrator (job states, compare-and-swap
  `transition`, the resolve → extract → summarize pipeline) — the backend
  sources are not part of the checked tree, so these definitions are
  modelled from the specification's description of the Job Store and
  Orchestrator contracts;
* the frontend clients — the `Home` component (`part_022`), the
  `Summarize` component (`part_003`), the `Home` page
  (`frontend/app/page.tsx`) and the legacy `Page` (`part_011`), whose
  submission, polling, test-limit and localStorage logic is translated
  directly from the TypeScript sources.
-/

namespace LayScience

/-- Job lifecycle states, as in the spec §3 and the Home component's
status union (minus the client-only `idle`). -/
inductive JobState where
  | queued
  | running
  | done
  | failed
deriving DecidableEq, Repr

/-- Position of a state in the lifecycle order `queued → running →
terminal`; both terminal states share the last position. -/
def JobState.rank : JobState → Nat
  | .queued => 0
  | .running => 1
  | .done => 2
  | .failed => 2

/-- Terminal states: `done` and `failed`. -/
def JobState.isTerminal : JobState → Bool
  | .done => true
  | .failed => true
  | _ => false

/-- Structured job error: machine-readable kind plus human-readable
message (spec §3, §7). -/
structure JobError where
  kind : String
  message : String
deriving DecidableEq, Repr

/-- A job record: lifecycle state, result present only when done, error
present only when failed (spec §3). The `input`/`options` fields are
immutable after creation and play no role in the lifecycle claims, so
they are not carried here. -/
structure Job where
  state : JobState
  result : Option String
  error : Option JobError
deriving DecidableEq, Repr

/-- A patch applied by a state transition: optionally sets the result or
the error (spec §4.1). -/
structure Patch where
  result : Option String := none
  error : Option JobError := none
deriving DecidableEq, Repr

/-- The job store: a mapping from numeric ids to job records plus a
fresh-id counter. -/
structure Store where
  jobs : Nat → Option Job
  nextId : Nat

/-- Losing side of a compare-and-swap race (spec §4.1, §7): internal
control-flow signal, never surfaced to the user. -/
inductive ConflictError where
  | mk
deriving DecidableEq, Repr

/-- Apply a transition patch to a job record, updating the state and
setting result/error where the patch provides them. -/
def applyPatch (j : Job) (p : Patch) (s : JobState) : Job :=
  { state := s
    result := match p.result with | some r => some r | none => j.result
    error := match p.error with | some e => some e | none => j.error }

/-- Modelled from the spec: the backend Job Store implementation is not
under the checked sources (only the backend README is), so
`transition(id, expected_state, new_state, patch)` is taken from §4.1:
it atomically verifies the job is currently in `expected_state`, then
applies the patch and updates the state, failing with `ConflictError`
when the current state does not match (an unknown id also fails). -/
def transition (s : Store) (id : Nat) (expected newState : JobState)
    (p : Patch) : Except ConflictError Store :=
  match s.jobs id with
  | none => .error .mk
  | some j =>
    if j.state = expected then
      .ok { s with jobs := fun i => if i = id then some (applyPatch j p newState) else s.jobs i }
    else
      .error .mk

/-- Modelled from the spec: `create` / `submit` (§4.1, §4.2) allocates a
fresh id, persists the record in state `queued`, and returns the id
immediately; background execution is scheduled separately and is not
part of this call. -/
def submit (s : Store) : Nat × Store :=
  (s.nextId,
   { jobs := fun i =>
       if i = s.nextId then some { state := .queued, result := none, error := none }
       else s.jobs i
     nextId := s.nextId + 1 })

/-- Answer of the status query: current state plus the structured error
when present. -/
structure StatusView where
  state : JobState
  error : Option JobError
deriving DecidableEq, Repr

/-- Unknown-id failure of the read-only queries (spec §4.3). -/
inductive NotFound where
  | mk
deriving DecidableEq, Repr

/-- Modelled from the spec: `getStatus(id)` (§4.3) is a pure read from
the Job Store, returning the state and error of a known job and
`NotFound` for unknown ids; it never returns an opaque failure for a
known job. -/
def getStatus (s : Store) (id : Nat) : Except NotFound StatusView :=
  match s.jobs id with
  | none => .error .mk
  | some j => .ok { state := j.state, error := j.error }

/-- Answer of the result query (spec §4.3): the result when done, a
keep-polling signal while queued/running, the terminal error when
failed. -/
inductive ResultView where
  | ready (result : Option String)
  | pending
  | failure (error : Option JobError)
deriving DecidableEq, Repr

/-- Modelled from the spec: `getResult(id)` (§4.3) returns the result
only if the state is `done`, signals pending while `queued`/`running`,
and surfaces the terminal error when `failed`. -/
def getResult (s : Store) (id : Nat) : Except NotFound ResultView :=
  match s.jobs id with
  | none => .error .mk
  | some j =>
    match j.state with
    | .done => .ok (.ready j.result)
    | .failed => .ok (.failure j.error)
    | _ => .ok .pending

/-- Outcome of one external collaborator call (resolve, extract or
summarize): success with a value, or a failure message. -/
inductive ExtCall (α : Type) where
  | ok (value : α)
  | failure (message : String)

/-- The behaviour of the three external collaborators during one
pipeline execution (spec §2, §6): document resolution, text extraction,
summarization. -/
structure Collaborators where
  resolveRes : ExtCall String
  extractRes : ExtCall String
  summarizeRes : ExtCall String

/-- The pipeline steps a background execution can perform; used to
record which side effects an invocation caused. -/
inductive PipelineStep where
  | resolveStep
  | extractStep
  | summarizeStep
deriving DecidableEq, Repr

/-- Run a transition and swallow a `ConflictError` (spec §4.2: a racing
terminal write becomes a no-op that is safely ignored). -/
def transitionOr (s : Store) (id : Nat) (expected newState : JobState)
    (p : Patch) : Store :=
  match transition s id expected newState p with
  | .ok s2 => s2
  | .error _ => s

/-- Modelled from the spec: the background execution of one job (§4.2).
It first attempts the compare-and-swap `queued → running`; on
`ConflictError` it aborts silently with no further work. Otherwise it
runs resolve, extract, summarize in order, transitioning to `failed`
with the step's error kind on the first failure, and to `done` with the
result on success; every terminal write expects `running`. The returned
list records the collaborator calls actually performed. -/
def execute (s : Store) (id : Nat) (c : Collaborators) :
    Store × List PipelineStep :=
  match transition s id .queued .running {} with
  | .error _ => (s, [])
  | .ok s1 =>
    match c.resolveRes with
    | .failure m =>
        (transitionOr s1 id .running .failed { error := some ⟨"ResolutionError", m⟩ },
         [.resolveStep])
    | .ok _ =>
      match c.extractRes with
      | .failure m =>
          (transitionOr s1 id .running .failed { error := some ⟨"ExtractionError", m⟩ },
           [.resolveStep, .extractStep])
      | .ok _ =>
        match c.summarizeRes with
        | .failure m =>
            (transitionOr s1 id .running .failed { error := some ⟨"SummarizationError", m⟩ },
             [.resolveStep, .extractStep, .summarizeStep])
        | .ok text =>
            (transitionOr s1 id .running .done { result := some text },
             [.resolveStep, .extractStep, .summarizeStep])

/-- The pipeline steps `execute` performs once it has claimed the job:
a prefix of resolve, extract, summarize cut at the first failure. -/
def pipelineSteps (c : Collaborators) : List PipelineStep :=
  match c.resolveRes with
  | .failure _ => [.resolveStep]
  | .ok _ =>
    match c.extractRes with
    | .failure _ => [.resolveStep, .extractStep]
    | .ok _ => [.resolveStep, .extractStep, .summarizeStep]

/-- One orchestrator-visible mutation of the store (spec §5: all
mutation is funnelled through `create` and the compare-and-swap
`transition`, and the orchestrator only issues the transitions of
§4.2). -/
inductive OrchStep : Store → Store → Prop where
  | createJob (s : Store) : OrchStep s (submit s).2
  | claim (s : Store) (id : Nat) (s2 : Store) :
      transition s id .queued .running {} = .ok s2 → OrchStep s s2
  | finishOk (s : Store) (id : Nat) (r : String) (s2 : Store) :
      transition s id .running .done { result := some r } = .ok s2 → OrchStep s s2
  | finishFail (s : Store) (id : Nat) (e : JobError) (s2 : Store) :
      transition s id .running .failed { error := some e } = .ok s2 → OrchStep s s2

/-- Reachability under orchestrator steps. -/
def OrchReach : Store → Store → Prop :=
  Relation.ReflTransGen OrchStep

/-- The empty store: no jobs, first id 0. -/
def emptyStore : Store :=
  { jobs := fun _ => none, nextId := 0 }

/-- The first failing step of a pipeline run, with its error kind and
message, as recorded by `execute`; `none` when all three calls
succeed. -/
def pipelineFailure (c : Collaborators) : Option JobError :=
  match c.resolveRes with
  | .failure m => some ⟨"ResolutionError", m⟩
  | .ok _ =>
    match c.extractRes with
    | .failure m => some ⟨"ExtractionError", m⟩
    | .ok _ =>
      match c.summarizeRes with
      | .failure m => some ⟨"SummarizationError", m⟩
      | .ok _ => none

/-- Client-side display status, the state union of the Home component
(`part_022` line 11): `idle` before a job is started, then the four
server states. -/
inductive DisplayStatus where
  | idle
  | queued
  | running
  | done
  | failed
deriving DecidableEq, Repr

/-- The display status a poll tick stores for a server state
(`setStatus(j.status)`). -/
def displayOf : JobState → DisplayStatus
  | .queued => .queued
  | .running => .running
  | .done => .done
  | .failed => .failed

/-- Position of a display status in the observed lifecycle order. -/
def DisplayStatus.rank : DisplayStatus → Nat
  | .idle => 0
  | .queued => 1
  | .running => 2
  | .done => 3
  | .failed => 3

/-- What the status endpoint hands a polling client: the job status
plus the structured error object. -/
structure ClientJobView where
  status : JobState
  error : Option JobError
deriving DecidableEq, Repr

/-- Client-side state touched by one poll tick: the displayed status,
whether the polling interval is still armed (`pollRef`/the next
scheduled tick), how many times the summary endpoint was fetched, the
displayed summary, and the toasts shown. -/
structure PollState where
  status : DisplayStatus
  polling : Bool
  summaryFetches : Nat
  summary : String
  toasts : List String
deriving DecidableEq, Repr

/-- JSON serialization of an error object, used as toast fallback by
`JSON.stringify(j.error)`. -/
def jsonStringifyError (e : JobError) : String :=
  "\x7b\"kind\":\"" ++ e.kind ++ "\",\"message\":\"" ++ e.message ++ "\"\x7d"

/-- The error text of the failed-toast in the Home and Summarize
components: `j.error?.message || JSON.stringify(j.error)`. -/
def failedErrText : Option JobError → String
  | none => "undefined"
  | some e => if e.message = "" then jsonStringifyError e else e.message

/-- One tick of the Home component's `poll` (`part_022` lines 46-63):
fetch the job (`none` models a thrown/caught fetch error, ignored);
store the status; on `failed` clear the interval and toast the error;
on `done` clear the interval, fetch the summary once and display its
payload when non-empty. -/
def homePoll (r : Option ClientJobView) (pay : Option String)
    (ps : PollState) : PollState :=
  match r with
  | none => ps
  | some j =>
    let ps1 := { ps with status := displayOf j.status }
    match j.status with
    | .failed =>
        { ps1 with polling := false
                   toasts := ps1.toasts ++ ["Failed: " ++ failedErrText j.error] }
    | .done =>
        { ps1 with polling := false
                   summaryFetches := ps1.summaryFetches + 1
                   summary := match pay with
                              | some t => if t = "" then ps1.summary else t
                              | none => ps1.summary }
    | _ => ps1

/-- One tick of the Summarize component's `poll` (`part_003` lines
125-174); same status/interval/toast/fetch behaviour as the Home
component (its extra summaries/history persistence is modelled by
`summariesPersisted`/`historyTitlePersisted` below). -/
def summarizePoll (r : Option ClientJobView) (pay : Option String)
    (ps : PollState) : PollState :=
  match r with
  | none => ps
  | some j =>
    let ps1 := { ps with status := displayOf j.status }
    match j.status with
    | .failed =>
        { ps1 with polling := false
                   toasts := ps1.toasts ++ ["Failed: " ++ failedErrText j.error] }
    | .done =>
        { ps1 with polling := false
                   summaryFetches := ps1.summaryFetches + 1
                   summary := match pay with
                              | some t => if t = "" then ps1.summary else t
                              | none => ps1.summary }
    | _ => ps1

/-- One tick of the `frontend/app/page.tsx` polling interval (lines
64-87): on a caught fetch error nothing changes; the status is stored;
only the `done` branch fetches the summary and clears the interval —
the `failed` branch leaves the interval armed. -/
def pagePoll (r : Option ClientJobView) (pay : Option String)
    (ps : PollState) : PollState :=
  match r with
  | none => ps
  | some j =>
    let ps1 := { ps with status := displayOf j.status }
    match j.status with
    | .done =>
        { ps1 with summaryFetches := ps1.summaryFetches + 1
                   summary := match pay with
                              | some t => t
                              | none => ps1.summary
                   polling := false }
    | _ => ps1

/-- One tick of the legacy `Page` polling loop (`part_011` lines
22-49): on a fetch error it toasts and stops rescheduling; `done`
fetches the summary and stops; `failed` toasts and stops; otherwise the
next tick is scheduled. -/
def legacyPoll (r : Option ClientJobView) (pay : Option String)
    (ps : PollState) : PollState :=
  match r with
  | none => { ps with polling := false }
  | some j =>
    let ps1 := { ps with status := displayOf j.status }
    match j.status with
    | .done =>
        { ps1 with summaryFetches := ps1.summaryFetches + 1
                   summary := match pay with
                              | some t => t
                              | none => ps1.summary
                   polling := false }
    | .failed =>
        { ps1 with polling := false
                   toasts := ps1.toasts ++ ["The job failed. Check server logs."] }
    | _ => ps1

/-- Drive a polling loop over a list of (status response, summary
payload) pairs: a tick fires only while the interval is armed. -/
def runPoll (tick : Option ClientJobView → Option String → PollState → PollState) :
    List (Option ClientJobView × Option String) → PollState → PollState
  | [], ps => ps
  | r :: rest, ps => if ps.polling then runPoll tick rest (tick r.1 r.2 ps) else ps

/-- A response that does not show a terminal state: a caught fetch
error, or a `queued`/`running` status. -/
def respNonTerminal (x : Option ClientJobView × Option String) : Bool :=
  match x.1 with
  | none => true
  | some v => !v.status.isTerminal

/-- Polling interval of the Home component (`setInterval(() =>
poll(res.id), 1500)`, `part_022` line 38), in milliseconds. -/
def homePollIntervalMs : Nat := 1500

/-- Polling interval of `frontend/app/page.tsx` (`setInterval(..., 1500)`,
line 85), in milliseconds. -/
def pagePollIntervalMs : Nat := 1500

/-- Polling delay of the legacy `Page` (`setTimeout(tick, 1500)`,
`part_011` line 45), in milliseconds. -/
def legacyPollIntervalMs : Nat := 1500

/-- Client state set by the Home component's `onStart` once `startJob`
answers (`part_022` lines 30-43). -/
structure StartOutcome where
  jobId : Option String
  status : DisplayStatus
  pollTarget : Option String
deriving DecidableEq, Repr

/-- The Home component's handling of the `startJob` response: on
success store the returned id, display `queued` and start the polling
interval on that id; on error (after the preceding `reset()`) only a
toast is shown and no polling starts. -/
def onStartAfter (res : Except String String) : StartOutcome :=
  match res with
  | .ok id => { jobId := some id, status := .queued, pollTarget := some id }
  | .error _ => { jobId := none, status := .idle, pollTarget := none }

/-- The poll state right after a successful `onStart` in the Home
component: displayed status `queued`, interval armed. -/
def homeStartPoll : PollState :=
  { status := .queued, polling := true, summaryFetches := 0, summary := "", toasts := [] }

/-- The client state right after a successful `run` in
`frontend/app/page.tsx` (lines 52-57): the status is optimistically set
to `running` before any poll answers, and the interval is armed. -/
def pageRunSuccess : PollState :=
  { status := .running, polling := true, summaryFetches := 0, summary := "", toasts := [] }

/-- Account/test-limit state of a Home session (`part_022`): whether
`hasAccount` is stored, the persisted `testCount`, and counters for the
`startJob` calls made and the summaries completed. -/
structure HomeSession where
  hasAccount : Bool
  testCount : Nat
  submissions : Nat
  completions : Nat
deriving DecidableEq, Repr

/-- One `onStart` attempt of the Home component and its aftermath: with
no account and `testCount >= 5` the guard (`part_022` lines 26-29)
returns before `startJob`, changing nothing; otherwise `startJob` is
called, and if the job completes with a summary the test counter is
incremented by the `useEffect` of lines 74-80 (only without an
account). -/
def sessionAttempt (s : HomeSession) (completes : Bool) : HomeSession :=
  if !s.hasAccount && decide (5 ≤ s.testCount) then s
  else
    let s1 := { s with submissions := s.submissions + 1 }
    if completes then
      { s1 with completions := s1.completions + 1
                testCount := if s1.hasAccount then s1.testCount else s1.testCount + 1 }
    else s1

/-- A sequence of `onStart` attempts; each boolean says whether that
attempt's job produced a summary. -/
def runSession (s : HomeSession) : List Bool → HomeSession
  | [] => s
  | b :: bs => runSession (sessionAttempt s b) bs

/-- The input object built by `run` in `frontend/app/page.tsx` (lines
43-46): at most one of the three optional fields is filled. -/
structure RunInput where
  doi : Option String := none
  url : Option String := none
  s3Key : Option String := none
deriving DecidableEq, Repr

/-- JavaScript `String.prototype.trim`: strip leading and trailing
whitespace. -/
def jsTrim (s : String) : String :=
  ⟨((s.data.dropWhile Char.isWhitespace).reverse.dropWhile Char.isWhitespace).reverse⟩

/-- The `run` input construction (`frontend/app/page.tsx` lines 42-50):
an if/else-if chain takes the trimmed DOI, else the trimmed URL, else
the upload key; with none of them truthy, `run` toasts and returns
before `startJob` is called, which the `none` answer models. -/
def runInput (doi url : String) (s3Key : Option String) : Option RunInput :=
  if jsTrim doi ≠ "" then some { doi := some (jsTrim doi) }
  else if jsTrim url ≠ "" then some { url := some (jsTrim url) }
  else
    match s3Key with
    | some k => if k = "" then none else some { s3Key := some k }
    | none => none

/-- Number of input fields set in a `run` input object. -/
def inputSetCount (i : RunInput) : Nat :=
  (if i.doi.isSome then 1 else 0) + (if i.url.isSome then 1 else 0) +
    (if i.s3Key.isSome then 1 else 0)

/-- The request body built by `startJob` in `frontend/lib/api.ts`
(lines 36-66): with a file it sends multipart form data holding the
`pdf` part and, when `ref` is truthy, also the `ref` part; without a
file it sends a JSON body with the `ref`. -/
structure StartRequest where
  multipart : Bool
  ref : Option String
  pdf : Option String
deriving DecidableEq, Repr

/-- Translation of `startJob`'s request construction. -/
def startJobRequest (ref : Option String) (file : Option String) : StartRequest :=
  match file with
  | some f =>
      { multipart := true
        ref := match ref with
               | some r => if r = "" then none else some r
               | none => none
        pdf := some f }
  | none => { multipart := false, ref := ref, pdf := none }

/-- Number of input references a start request carries (DOI/URL `ref`
or uploaded document). -/
def requestInputCount (r : StartRequest) : Nat :=
  (if r.ref.isSome then 1 else 0) + (if r.pdf.isSome then 1 else 0)

/-- History entry kinds of the Summarize component (`part_003`). -/
inductive RefKind where
  | link
  | pdf
deriving DecidableEq, Repr

/-- A recent-references entry (`part_003` `HistoryItem`). -/
structure HistoryItem where
  type : RefKind
  value : String
  name : Option String := none
  title : Option String := none
deriving DecidableEq, Repr

/-- A recent-summaries entry (`part_003` `SummaryItem`). -/
structure SummaryItem where
  id : String
  title : Option String
  content : String
deriving DecidableEq, Repr

/-- The list `addToHistory` (`part_003` lines 53-62) writes to the
`history` localStorage key: the new item is prepended, link entries are
kept and the list is cut to 20. -/
def historyPersisted (item : HistoryItem) (prev : List HistoryItem) : List HistoryItem :=
  ((item :: prev).filter fun h => h.type == RefKind.link).take 20

/-- The list the Summarize `poll` (`part_003` lines 147-154) writes to
the `summaries` localStorage key: the new entry is prepended and the
list is cut to 20. -/
def summariesPersisted (item : SummaryItem) (prev : List SummaryItem) : List SummaryItem :=
  (item :: prev).take 20

/-- The list the Summarize `poll` title-update branch (`part_003` lines
157-169) writes to the `history` key when the history is non-empty: the
first entry gets the fetched title, link entries are kept and the list
is cut to 20. -/
def historyTitlePersisted (title : String) (first : HistoryItem)
    (rest : List HistoryItem) : List HistoryItem :=
  (({ first with title := some title } :: rest).filter fun h => h.type == RefKind.link).take 20

/-- A fresh browser profile: no account, zero stored test count. -/
def initialSession : HomeSession :=
  { hasAccount := false, testCount := 0, submissions := 0, completions := 0 }

/-- A profile without an account that has exhausted its 5 tests. -/
def limitSession : HomeSession :=
  { hasAccount := false, testCount := 5, submissions := 0, completions := 0 }

/-- A collaborator behaviour where all three pipeline calls succeed. -/
def cAllOk : Collaborators :=
  { resolveRes := .ok "bytes", extractRes := .ok "text", summarizeRes := .ok "summary" }

/-- A collaborator behaviour where document resolution fails. -/
def cResolveFail : Collaborators :=
  { resolveRes := .failure "bad DOI", extractRes := .ok "", summarizeRes := .ok "" }

/-- Ids at or above the fresh-id counter are unallocated; holds for the
empty store and is preserved by every orchestrator step. -/
def FreshIds (s : Store) : Prop :=
  ∀ i, s.nextId ≤ i → s.jobs i = none

/-- Result/error exclusivity of a store (spec §3 invariants): a job's
result is present exactly when it is done, its error exactly when it
has failed. -/
def WF (s : Store) : Prop :=
  ∀ id j, s.jobs id = some j →
    (j.result ≠ none ↔ j.state = .done) ∧ (j.error ≠ none ↔ j.state = .failed)

lemma transition_ok_eq (s : Store) (id : Nat) (j : Job) (exp ns : JobState)
    (p : Patch) (hj : s.jobs id = some j) (hs : j.state = exp) :
    transition s id exp ns p =
      .ok { s with jobs := fun i => if i = id then some (applyPatch j p ns) else s.jobs i } := by
  simp [transition, hj, hs]

lemma transition_conflict_of (s : Store) (id : Nat) (exp ns : JobState)
    (p : Patch) (h : ∀ j, s.jobs id = some j → ¬ j.state = exp) :
    transition s id exp ns p = .error .mk := by
  unfold transition
  cases hj : s.jobs id with
  | none => rfl
  | some j => simp [h j hj]

lemma transition_ok_inv (s s2 : Store) (id : Nat) (exp ns : JobState)
    (p : Patch) (h : transition s id exp ns p = .ok s2) :
    ∃ j, s.jobs id = some j ∧ j.state = exp ∧
      s2.jobs = (fun i => if i = id then some (applyPatch j p ns) else s.jobs i) ∧
      s2.nextId = s.nextId := by
  cases hj : s.jobs id with
  | none => simp [transition, hj] at h
  | some j =>
    by_cases hs : j.state = exp
    · rw [transition_ok_eq s id j exp ns p hj hs] at h
      injection h with h2
      exact ⟨j, rfl, hs, by rw [← h2], by rw [← h2]⟩
    · rw [transition_conflict_of s id exp ns p ?_] at h
      · exact absurd h (by simp)
      · intro j2 hj2
        rw [hj] at hj2
        injection hj2 with hjj
        rw [← hjj]
        exact hs

lemma transitionOr_ok (s : Store) (id : Nat) (j : Job) (exp ns : JobState)
    (p : Patch) (hj : s.jobs id = some j) (hs : j.state = exp) :
    transitionOr s id exp ns p =
      { s with jobs := fun i => if i = id then some (applyPatch j p ns) else s.jobs i } := by
  simp [transitionOr, transition_ok_eq s id j exp ns p hj hs]

lemma freshIds_empty : FreshIds emptyStore := by
  intro i _
  rfl

lemma freshIds_trans (s s2 : Store) (idc : Nat) (exp ns : JobState) (p : Patch)
    (ht : transition s idc exp ns p = .ok s2) (hf : FreshIds s) : FreshIds s2 := by
  obtain ⟨j, hj, _, hjobs, hnext⟩ := transition_ok_inv _ _ _ _ _ _ ht
  intro i hi
  rw [hnext] at hi
  simp only [hjobs]
  by_cases hii : i = idc
  · subst hii
    rw [hf i hi] at hj
    cases hj
  · rw [if_neg hii]
    exact hf i hi

lemma freshIds_step (s s2 : Store) (h : OrchStep s s2) (hf : FreshIds s) :
    FreshIds s2 := by
  cases h with
  | createJob =>
    intro i hi
    simp only [submit] at hi ⊢
    have hne : i ≠ s.nextId := by omega
    rw [if_neg hne]
    exact hf i (by omega)
  | claim id s2 ht => exact freshIds_trans _ _ _ _ _ _ ht hf
  | finishOk id r s2 ht => exact freshIds_trans _ _ _ _ _ _ ht hf
  | finishFail id e s2 ht => exact freshIds_trans _ _ _ _ _ _ ht hf

lemma freshIds_reach (s s2 : Store) (h : OrchReach s s2) (hf : FreshIds s) :
    FreshIds s2 := by
  induction h with
  | refl => exact hf
  | tail _ hstep ih => exact freshIds_step _ _ hstep ih

/-- A compare-and-swap transition touches only the targeted record: any
other record either stays as it is, or is the target and receives the
patched job. -/
lemma orchStep_job_trans (s s2 : Store) (idc : Nat) (exp ns : JobState) (p : Patch)
    (ht : transition s idc exp ns p = .ok s2)
    (id : Nat) (j j2 : Job) (hj : s.jobs id = some j) (hj2 : s2.jobs id = some j2) :
    j2 = j ∨ (j.state = exp ∧ j2 = applyPatch j p ns) := by
  obtain ⟨jc, hjc, hsc, hjobs, _⟩ := transition_ok_inv _ _ _ _ _ _ ht
  simp only [hjobs] at hj2
  by_cases hii : id = idc
  · subst hii
    rw [if_pos rfl] at hj2
    rw [hjc] at hj
    injection hj with hjj
    subst hjj
    injection hj2 with h2
    exact Or.inr ⟨hsc, h2.symm⟩
  · rw [if_neg hii, hj] at hj2
    injection hj2 with h2
    exact Or.inl h2.symm

lemma trans_keeps (s s2 : Store) (idc : Nat) (exp ns : JobState) (p : Patch)
    (ht : transition s idc exp ns p = .ok s2)
    (id : Nat) (j : Job) (hj : s.jobs id = some j) :
    ∃ j2, s2.jobs id = some j2 := by
  obtain ⟨jc, hjc, _, hjobs, _⟩ := transition_ok_inv _ _ _ _ _ _ ht
  by_cases hii : id = idc
  · subst hii
    exact ⟨applyPatch jc p ns, by simp [hjobs]⟩
  · exact ⟨j, by simp only [hjobs]; rw [if_neg hii]; exact hj⟩

lemma orchStep_keeps (s s2 : Store) (h : OrchStep s s2) (hf : FreshIds s)
    (id : Nat) (j : Job) (hj : s.jobs id = some j) :
    ∃ j2, s2.jobs id = some j2 := by
  cases h with
  | createJob =>
    by_cases hii : id = s.nextId
    · rw [hii, hf s.nextId (le_refl _)] at hj
      cases hj
    · exact ⟨j, by simp only [submit]; rw [if_neg hii]; exact hj⟩
  | claim idc s2 ht => exact trans_keeps _ _ _ _ _ _ ht id j hj
  | finishOk idc r s2 ht => exact trans_keeps _ _ _ _ _ _ ht id j hj
  | finishFail idc e s2 ht => exact trans_keeps _ _ _ _ _ _ ht id j hj

/-- Per-step characterization of how one orchestrator step can change
one job record, assuming fresh ids: unchanged, claimed
(queued → running, payload kept), finished (running → done with a
result), or failed (running → failed with an error). -/
lemma orchStep_job (s s2 : Store) (h : OrchStep s s2) (hf : FreshIds s)
    (id : Nat) (j j2 : Job) (hj : s.jobs id = some j) (hj2 : s2.jobs id = some j2) :
    j2 = j ∨
      (j.state = .queued ∧ j2 = { state := .running, result := j.result, error := j.error }) ∨
      (j.state = .running ∧ ∃ r, j2 = { state := .done, result := some r, error := j.error }) ∨
      (j.state = .running ∧ ∃ e, j2 = { state := .failed, result := j.result, error := some e }) := by
  cases h with
  | createJob =>
    left
    simp only [submit] at hj2
    by_cases hii : id = s.nextId
    · rw [hii, hf s.nextId (le_refl _)] at hj
      cases hj
    · rw [if_neg hii, hj] at hj2
      injection hj2 with h2
      exact h2.symm
  | claim idc s2 ht =>
    rcases orchStep_job_trans _ _ _ _ _ _ ht id j j2 hj hj2 with h1 | ⟨hs, h2⟩
    · exact Or.inl h1
    · right; left
      exact ⟨hs, by rw [h2]; simp [applyPatch]⟩
  | finishOk idc r s2 ht =>
    rcases orchStep_job_trans _ _ _ _ _ _ ht id j j2 hj hj2 with h1 | ⟨hs, h2⟩
    · exact Or.inl h1
    · right; right; left
      exact ⟨hs, r, by rw [h2]; simp [applyPatch]⟩
  | finishFail idc e s2 ht =>
    rcases orchStep_job_trans _ _ _ _ _ _ ht id j j2 hj hj2 with h1 | ⟨hs, h2⟩
    · exact Or.inl h1
    · right; right; right
      exact ⟨hs, e, by rw [h2]; simp [applyPatch]⟩

/-- One orchestrator step never deletes a job, never moves its state
backward in the lifecycle order, and leaves terminal records
untouched. -/
lemma orchStep_mono (s s2 : Store) (h : OrchStep s s2) (hf : FreshIds s)
    (id : Nat) (j : Job) (hj : s.jobs id = some j) :
    ∃ j2, s2.jobs id = some j2 ∧ j.state.rank ≤ j2.state.rank ∧
      (j.state.isTerminal = true → j2 = j) := by
  obtain ⟨j2, hj2⟩ := orchStep_keeps s s2 h hf id j hj
  refine ⟨j2, hj2, ?_, ?_⟩
  · rcases orchStep_job s s2 h hf id j j2 hj hj2 with h1 | ⟨hq, h1⟩ | ⟨hr, _, h1⟩ | ⟨hr, _, h1⟩
    · rw [h1]
    · rw [hq, h1]
      simp only [JobState.rank]
      omega
    · rw [hr, h1]
      simp only [JobState.rank]
      omega
    · rw [hr, h1]
      simp only [JobState.rank]
      omega
  · intro hterm
    rcases orchStep_job s s2 h hf id j j2 hj hj2 with h1 | ⟨hq, _⟩ | ⟨hr, _⟩ | ⟨hr, _⟩
    · exact h1
    · rw [hq] at hterm
      exact absurd hterm (by decide)
    · rw [hr] at hterm
      exact absurd hterm (by decide)
    · rw [hr] at hterm
      exact absurd hterm (by decide)

/-- Reachability version of `orchStep_mono`. -/
lemma orchReach_mono (s s2 : Store) (h : OrchReach s s2) (hf : FreshIds s)
    (id : Nat) (j : Job) (hj : s.jobs id = some j) :
    ∃ j2, s2.jobs id = some j2 ∧ j.state.rank ≤ j2.state.rank ∧
      (j.state.isTerminal = true → j2 = j) := by
  induction h with
  | refl => exact ⟨j, hj, le_refl _, fun _ => rfl⟩
  | tail hr hstep ih =>
    obtain ⟨jm, hjm, hrank, hterm⟩ := ih
    have hfm := freshIds_reach _ _ hr hf
    obtain ⟨j2, hj2, hrank2, hterm2⟩ := orchStep_mono _ _ hstep hfm id jm hjm
    refine ⟨j2, hj2, le_trans hrank hrank2, ?_⟩
    intro ht
    have hjm_eq : jm = j := hterm ht
    rw [hjm_eq] at hterm2
    exact hterm2 ht

lemma wf_trans (s s2 : Store) (idc : Nat) (exp ns : JobState) (p : Patch)
    (ht : transition s idc exp ns p = .ok s2) (hw : WF s)
    (hok : ∀ jc : Job, jc.state = exp →
        (jc.result ≠ none ↔ jc.state = .done) → (jc.error ≠ none ↔ jc.state = .failed) →
        ((applyPatch jc p ns).result ≠ none ↔ (applyPatch jc p ns).state = .done) ∧
        ((applyPatch jc p ns).error ≠ none ↔ (applyPatch jc p ns).state = .failed)) :
    WF s2 := by
  intro id j2 hj2
  obtain ⟨jc, hjc, hsc, hjobs, _⟩ := transition_ok_inv _ _ _ _ _ _ ht
  simp only [hjobs] at hj2
  by_cases hii : id = idc
  · subst hii
    rw [if_pos rfl] at hj2
    injection hj2 with h2
    obtain ⟨h3, h4⟩ := hw id jc hjc
    rw [← h2]
    exact hok jc hsc h3 h4
  · rw [if_neg hii] at hj2
    exact hw id j2 hj2

lemma wf_step (s s2 : Store) (h : OrchStep s s2) (hw : WF s) : WF s2 := by
  cases h with
  | createJob =>
    intro id j2 hj2
    simp only [submit] at hj2
    by_cases hii : id = s.nextId
    · rw [hii, if_pos rfl] at hj2
      injection hj2 with h2
      rw [← h2]
      exact ⟨by simp, by simp⟩
    · rw [if_neg hii] at hj2
      exact hw id j2 hj2
  | claim idc s2 ht =>
    refine wf_trans _ _ _ _ _ _ ht hw ?_
    intro jc hsc h3 h4
    have hr : jc.result = none := by
      by_contra hc
      have hd := h3.mp hc
      rw [hsc] at hd
      exact absurd hd (by decide)
    have he : jc.error = none := by
      by_contra hc
      have hd := h4.mp hc
      rw [hsc] at hd
      exact absurd hd (by decide)
    simp [applyPatch, hr, he]
  | finishOk idc r s2 ht =>
    refine wf_trans _ _ _ _ _ _ ht hw ?_
    intro jc hsc h3 h4
    have he : jc.error = none := by
      by_contra hc
      have hd := h4.mp hc
      rw [hsc] at hd
      exact absurd hd (by decide)
    simp [applyPatch, he]
  | finishFail idc e s2 ht =>
    refine wf_trans _ _ _ _ _ _ ht hw ?_
    intro jc hsc h3 h4
    have hr : jc.result = none := by
      by_contra hc
      have hd := h3.mp hc
      rw [hsc] at hd
      exact absurd hd (by decide)
    simp [applyPatch, hr]

lemma wf_reach (s s2 : Store) (h : OrchReach s s2) (hw : WF s) : WF s2 := by
  induction h with
  | refl => exact hw
  | tail _ hstep ih => exact wf_step _ _ hstep ih

lemma wf_empty : WF emptyStore := by
  intro id j hj
  cases hj

/-- After claiming a queued job, one pipeline execution performs
exactly the step prefix cut at the first collaborator failure and
leaves the job in the matching terminal state. -/
lemma execute_queued (s : Store) (id : Nat) (j : Job) (c : Collaborators)
    (hj : s.jobs id = some j) (hq : j.state = .queued) :
    (execute s id c).2 = pipelineSteps c ∧
    ∃ jt, (execute s id c).1.jobs id = some jt ∧
      ((∃ e, pipelineFailure c = some e ∧ jt.state = .failed ∧ jt.error = some e) ∨
       (pipelineFailure c = none ∧ ∃ r, c.summarizeRes = .ok r ∧
          jt.state = .done ∧ jt.result = some r)) := by
  have ht := transition_ok_eq s id j .queued .running {} hj hq
  set sc : Store :=
    { s with jobs := fun i => if i = id then some (applyPatch j {} .running) else s.jobs i }
    with hsc
  have hjc : sc.jobs id = some (applyPatch j {} .running) := by
    rw [hsc]
    simp
  cases hres : c.resolveRes with
  | failure m =>
    have h2 := transitionOr_ok sc id (applyPatch j {} .running) .running .failed
      { error := some ⟨"ResolutionError", m⟩ } hjc rfl
    refine ⟨by simp only [execute, ht, hres, pipelineSteps], ?_⟩
    refine ⟨applyPatch (applyPatch j {} .running) { error := some ⟨"ResolutionError", m⟩ } .failed,
      ?_, Or.inl ⟨⟨"ResolutionError", m⟩, by simp [pipelineFailure, hres], rfl, rfl⟩⟩
    simp only [execute, ht, hres, h2]
    simp
  | ok bytes =>
    cases hext : c.extractRes with
    | failure m =>
      have h2 := transitionOr_ok sc id (applyPatch j {} .running) .running .failed
        { error := some ⟨"ExtractionError", m⟩ } hjc rfl
      refine ⟨by simp only [execute, ht, hres, hext, pipelineSteps], ?_⟩
      refine ⟨applyPatch (applyPatch j {} .running) { error := some ⟨"ExtractionError", m⟩ } .failed,
        ?_, Or.inl ⟨⟨"ExtractionError", m⟩, by simp [pipelineFailure, hres, hext], rfl, rfl⟩⟩
      simp only [execute, ht, hres, hext, h2]
      simp
    | ok text =>
      cases hsum : c.summarizeRes with
      | failure m =>
        have h2 := transitionOr_ok sc id (applyPatch j {} .running) .running .failed
          { error := some ⟨"SummarizationError", m⟩ } hjc rfl
        refine ⟨by simp only [execute, ht, hres, hext, hsum, pipelineSteps], ?_⟩
        refine ⟨applyPatch (applyPatch j {} .running)
            { error := some ⟨"SummarizationError", m⟩ } .failed,
          ?_, Or.inl ⟨⟨"SummarizationError", m⟩,
            by simp [pipelineFailure, hres, hext, hsum], rfl, rfl⟩⟩
        simp only [execute, ht, hres, hext, hsum, h2]
        simp
      | ok out =>
        have h2 := transitionOr_ok sc id (applyPatch j {} .running) .running .done
          { result := some out } hjc rfl
        refine ⟨by simp only [execute, ht, hres, hext, hsum, pipelineSteps], ?_⟩
        refine ⟨applyPatch (applyPatch j {} .running) { result := some out } .done,
          ?_, Or.inr ⟨by simp [pipelineFailure, hres, hext, hsum], out, rfl, rfl, rfl⟩⟩
        simp only [execute, ht, hres, hext, hsum, h2]
        simp

lemma runPoll_stopped (tick : Option ClientJobView → Option String → PollState → PollState)
    (rs : List (Option ClientJobView × Option String)) (ps : PollState)
    (h : ps.polling = false) : runPoll tick rs ps = ps := by
  cases rs with
  | nil => rfl
  | cons r rest => simp [runPoll, h]

lemma homePoll_nonterminal (x : Option ClientJobView × Option String) (ps : PollState)
    (h : respNonTerminal x = true) :
    (homePoll x.1 x.2 ps).polling = ps.polling ∧
    (homePoll x.1 x.2 ps).summaryFetches = ps.summaryFetches := by
  obtain ⟨r, pay⟩ := x
  cases r with
  | none => exact ⟨rfl, rfl⟩
  | some v =>
    simp only [respNonTerminal] at h
    cases hv : v.status with
    | queued => simp [homePoll, hv]
    | running => simp [homePoll, hv]
    | done => rw [hv] at h; simp [JobState.isTerminal] at h
    | failed => rw [hv] at h; simp [JobState.isTerminal] at h

lemma pagePoll_nonterminal (x : Option ClientJobView × Option String) (ps : PollState)
    (h : respNonTerminal x = true) :
    (pagePoll x.1 x.2 ps).polling = ps.polling ∧
    (pagePoll x.1 x.2 ps).summaryFetches = ps.summaryFetches := by
  obtain ⟨r, pay⟩ := x
  cases r with
  | none => exact ⟨rfl, rfl⟩
  | some v =>
    simp only [respNonTerminal] at h
    cases hv : v.status with
    | queued => simp [pagePoll, hv]
    | running => simp [pagePoll, hv]
    | done => rw [hv] at h; simp [JobState.isTerminal] at h
    | failed => rw [hv] at h; simp [JobState.isTerminal] at h

lemma homePoll_done (v : ClientJobView) (pay : Option String) (ps : PollState)
    (h : v.status = .done) :
    (homePoll (some v) pay ps).polling = false ∧
    (homePoll (some v) pay ps).summaryFetches = ps.summaryFetches + 1 := by
  simp [homePoll, h]

lemma homePoll_failed (v : ClientJobView) (pay : Option String) (ps : PollState)
    (h : v.status = .failed) :
    (homePoll (some v) pay ps).polling = false ∧
    (homePoll (some v) pay ps).summaryFetches = ps.summaryFetches := by
  simp [homePoll, h]

lemma pagePoll_done (v : ClientJobView) (pay : Option String) (ps : PollState)
    (h : v.status = .done) :
    (pagePoll (some v) pay ps).polling = false ∧
    (pagePoll (some v) pay ps).summaryFetches = ps.summaryFetches + 1 := by
  simp [pagePoll, h]

/-- Running a loop over a prefix of non-terminal responses neither
stops polling nor fetches the summary. -/
lemma runPoll_pre (tick : Option ClientJobView → Option String → PollState → PollState)
    (htick : ∀ x ps, respNonTerminal x = true →
        (tick x.1 x.2 ps).polling = ps.polling ∧
        (tick x.1 x.2 ps).summaryFetches = ps.summaryFetches)
    (pre rest : List (Option ClientJobView × Option String)) (ps : PollState)
    (hpre : ∀ x ∈ pre, respNonTerminal x = true) (hp : ps.polling = true) :
    ∃ ps1, runPoll tick (pre ++ rest) ps = runPoll tick rest ps1 ∧
      ps1.polling = true ∧ ps1.summaryFetches = ps.summaryFetches := by
  induction pre generalizing ps with
  | nil => exact ⟨ps, rfl, hp, rfl⟩
  | cons x pre ih =>
    have hx := hpre x (List.mem_cons_self _ _)
    obtain ⟨hp2, hf2⟩ := htick x ps hx
    have hstep : runPoll tick ((x :: pre) ++ rest) ps
        = runPoll tick (pre ++ rest) (tick x.1 x.2 ps) := by
      simp [runPoll, hp]
    obtain ⟨ps1, h1, h2, h3⟩ := ih (tick x.1 x.2 ps)
      (fun y hy => hpre y (List.mem_cons_of_mem _ hy)) (by rw [hp2, hp])
    exact ⟨ps1, by rw [hstep, h1], h2, by rw [h3, hf2]⟩

/-- C1: for every job in state `queued`, the background trigger's first
transition attempt is the compare-and-swap `queued → running`; the
invocation that wins performs the pipeline (exactly the step prefix of
resolve/extract/summarize), leaves the job in a non-`queued` state, and
any invocation whose first attempt runs against a non-`queued` record —
in particular one started after (or interleaved anywhere inside) the
winner — observes `ConflictError` on that first transition attempt and
performs no further work, leaving the store untouched. -/
theorem at_most_one_execution (s : Store) (id : Nat) (j : Job) (c c2 : Collaborators)
    (hj : s.jobs id = some j) (hq : j.state = .queued) :
    (execute s id c).2 = pipelineSteps c ∧
    pipelineSteps c ≠ [] ∧
    (∀ jt, (execute s id c).1.jobs id = some jt → jt.state ≠ .queued) ∧
    (∀ t : Store, (∀ jt, t.jobs id = some jt → jt.state ≠ .queued) →
        transition t id .queued .running {} = .error .mk ∧ execute t id c2 = (t, [])) ∧
    execute (execute s id c).1 id c2 = ((execute s id c).1, []) := by
  obtain ⟨hsteps, jt0, hjt0, hcase⟩ := execute_queued s id j c hj hq
  have hnq : ∀ jt, (execute s id c).1.jobs id = some jt → jt.state ≠ .queued := by
    intro jt hjt
    rw [hjt0] at hjt
    injection hjt with hji
    rcases hcase with ⟨e, _, hst, _⟩ | ⟨_, r, _, hst, _⟩
    · rw [← hji, hst]
      decide
    · rw [← hji, hst]
      decide
  have hlose : ∀ t : Store, (∀ jt, t.jobs id = some jt → jt.state ≠ .queued) →
      transition t id .queued .running {} = .error .mk ∧ execute t id c2 = (t, []) := by
    intro t hnt
    have hc : transition t id .queued .running {} = .error .mk :=
      transition_conflict_of t id .queued .running {} (fun j2 hj2 => hnt j2 hj2)
    exact ⟨hc, by simp [execute, hc]⟩
  refine ⟨hsteps, ?_, hnq, hlose, (hlose _ hnq).2⟩
  cases hres : c.resolveRes <;> cases hext : c.extractRes <;>
    simp [pipelineSteps, hres, hext]

/-- C1 witness: concrete double trigger on a freshly submitted job. -/
theorem at_most_one_execution_witness :
    (execute (submit emptyStore).2 0 cAllOk).2 = pipelineSteps cAllOk ∧
    pipelineSteps cAllOk ≠ [] ∧
    (∀ jt, (execute (submit emptyStore).2 0 cAllOk).1.jobs 0 = some jt →
        jt.state ≠ .queued) ∧
    (∀ t : Store, (∀ jt, t.jobs 0 = some jt → jt.state ≠ .queued) →
        transition t 0 .queued .running {} = .error .mk ∧ execute t 0 cAllOk = (t, [])) ∧
    execute (execute (submit emptyStore).2 0 cAllOk).1 0 cAllOk
      = ((execute (submit emptyStore).2 0 cAllOk).1, []) :=
  at_most_one_execution (submit emptyStore).2 0
    { state := .queued, result := none, error := none } cAllOk cAllOk rfl rfl

/-- C2 (amended): on the server side every job's state sequence is
monotone over `queued → running → {done|failed}` and terminal records
never change, and the Home client displays exactly the polled state; but
the `frontend/app/page.tsx` client optimistically displays `running`
right after submission, so a first poll that still reports `queued`
makes that client's observed sequence go backward — the no-backward
property does not hold for client-observed sequences there. -/
theorem job_states_monotonic :
    (∀ s s2 : Store, FreshIds s → OrchStep s s2 → ∀ id j j2,
        s.jobs id = some j → s2.jobs id = some j2 →
        j2 = j ∨ (j.state = .queued ∧ j2.state = .running) ∨
          (j.state = .running ∧ (j2.state = .done ∨ j2.state = .failed))) ∧
    (∀ s s2 : Store, FreshIds s → OrchReach s s2 → ∀ id j j2,
        s.jobs id = some j → s2.jobs id = some j2 →
        j.state.rank ≤ j2.state.rank ∧ (j.state.isTerminal = true → j2 = j)) ∧
    (∀ v pay ps, (homePoll (some v) pay ps).status = displayOf v.status) ∧
    (pagePoll (some { status := .queued, error := none }) none pageRunSuccess).status.rank
      < pageRunSuccess.status.rank := by
  refine ⟨?_, ?_, ?_, ?_⟩
  · intro s s2 hf h id j j2 hj hj2
    rcases orchStep_job s s2 h hf id j j2 hj hj2 with h1 | ⟨hq, h1⟩ | ⟨hr, _, h1⟩ | ⟨hr, _, h1⟩
    · exact Or.inl h1
    · exact Or.inr (Or.inl ⟨hq, by rw [h1]⟩)
    · exact Or.inr (Or.inr ⟨hr, Or.inl (by rw [h1])⟩)
    · exact Or.inr (Or.inr ⟨hr, Or.inr (by rw [h1])⟩)
  · intro s s2 hf h id j j2 hj hj2
    obtain ⟨j2b, hj2b, hrank, hterm⟩ := orchReach_mono s s2 h hf id j hj
    rw [hj2b] at hj2
    injection hj2 with hjj
    rw [← hjj]
    exact ⟨hrank, hterm⟩
  · intro v pay ps
    cases hv : v.status <;> simp [homePoll, hv]
  · decide

/-- C2 counterexample: the `page.tsx` client observes `running` (set
optimistically by `run`) and then `queued` from the first poll of a
freshly submitted job — the observed sequence goes backward. -/
theorem observed_state_goes_backward :
    getStatus (submit emptyStore).2 (submit emptyStore).1
      = .ok { state := .queued, error := none } ∧
    pageRunSuccess.status = DisplayStatus.running ∧
    (pagePoll (some { status := .queued, error := none }) none pageRunSuccess).status
      = DisplayStatus.queued ∧
    DisplayStatus.rank .queued < DisplayStatus.rank .running := by
  refine ⟨rfl, rfl, rfl, by decide⟩

/-- C2 witness: the reachability component applied to a freshly
submitted job. -/
theorem job_states_monotonic_witness :
    JobState.queued.rank ≤ JobState.queued.rank ∧
      (JobState.queued.isTerminal = true →
        ({ state := .queued, result := none, error := none } : Job)
          = { state := .queued, result := none, error := none }) :=
  job_states_monotonic.2.1 (submit emptyStore).2 (submit emptyStore).2
    (freshIds_step emptyStore (submit emptyStore).2 (OrchStep.createJob emptyStore)
      freshIds_empty)
    Relation.ReflTransGen.refl 0 _ _ rfl rfl

/-- C4: every reachable store keeps result presence equivalent to
`done` and error presence equivalent to `failed`; `getResult` hands out
a result only for a `done` job; and each client loop fetches the
summary payload exactly on a poll that observed `done`, never on
`queued`, `running`, `failed` or a fetch error. -/
theorem result_error_exclusivity :
    WF emptyStore ∧
    (∀ s s2 : Store, WF s → OrchReach s s2 → WF s2) ∧
    (∀ (s : Store) (id : Nat) (r : Option String),
        getResult s id = .ok (.ready r) →
        ∃ j, s.jobs id = some j ∧ j.state = .done ∧ j.result = r) ∧
    (∀ v pay ps, (homePoll (some v) pay ps).summaryFetches
        = if v.status = .done then ps.summaryFetches + 1 else ps.summaryFetches) ∧
    (∀ v pay ps, (summarizePoll (some v) pay ps).summaryFetches
        = if v.status = .done then ps.summaryFetches + 1 else ps.summaryFetches) ∧
    (∀ v pay ps, (pagePoll (some v) pay ps).summaryFetches
        = if v.status = .done then ps.summaryFetches + 1 else ps.summaryFetches) ∧
    (∀ v pay ps, (legacyPoll (some v) pay ps).summaryFetches
        = if v.status = .done then ps.summaryFetches + 1 else ps.summaryFetches) ∧
    (∀ pay ps, (homePoll none pay ps).summaryFetches = ps.summaryFetches ∧
        (summarizePoll none pay ps).summaryFetches = ps.summaryFetches ∧
        (pagePoll none pay ps).summaryFetches = ps.summaryFetches ∧
        (legacyPoll none pay ps).summaryFetches = ps.summaryFetches) := by
  refine ⟨wf_empty, fun s s2 hw h => wf_reach s s2 h hw, ?_, ?_, ?_, ?_, ?_, ?_⟩
  · intro s id r h
    cases hj : s.jobs id with
    | none => simp [getResult, hj] at h
    | some j =>
      cases hs : j.state with
      | done =>
        refine ⟨j, rfl, hs, ?_⟩
        simp [getResult, hj, hs] at h
        exact h
      | failed => simp [getResult, hj, hs] at h
      | queued => simp [getResult, hj, hs] at h
      | running => simp [getResult, hj, hs] at h
  · intro v pay ps
    cases hv : v.status <;> simp [homePoll, hv]
  · intro v pay ps
    cases hv : v.status <;> simp [summarizePoll, hv]
  · intro v pay ps
    cases hv : v.status <;> simp [pagePoll, hv]
  · intro v pay ps
    cases hv : v.status <;> simp [legacyPoll, hv]
  · intro pay ps
    exact ⟨rfl, rfl, rfl, rfl⟩

/-- C4 witness: the result handed out for a concretely completed job
comes from a `done` record. -/
theorem result_error_exclusivity_witness :
    ∃ j, (execute (submit emptyStore).2 0 cAllOk).1.jobs 0 = some j ∧
      j.state = JobState.done ∧ j.result = some "summary" :=
  result_error_exclusivity.2.2.1 (execute (submit emptyStore).2 0 cAllOk).1 0
    (some "summary") rfl

/-- C5: `submit` makes the new job `queued` and returns its id without
touching any other record (the pipeline has not run); the Home client
takes the id from the `startJob` response, displays `queued`, and only
then starts polling with exactly that id. -/
theorem submit_returns_id_immediately (s : Store) (id : String) :
    (submit s).1 = s.nextId ∧
    (submit s).2.jobs s.nextId
      = some { state := .queued, result := none, error := none } ∧
    (∀ i, i ≠ s.nextId → (submit s).2.jobs i = s.jobs i) ∧
    onStartAfter (.ok id)
      = { jobId := some id, status := .queued, pollTarget := some id } ∧
    homeStartPoll.polling = true ∧ homeStartPoll.status = .queued := by
  refine ⟨rfl, by simp [submit], ?_, rfl, rfl, rfl⟩
  intro i hi
  simp [submit, hi]

/-- C5 witness: an id other than the allocated one is untouched by a
concrete submission. -/
theorem submit_returns_id_immediately_witness :
    (submit emptyStore).2.jobs 5 = emptyStore.jobs 5 :=
  (submit_returns_id_immediately emptyStore "job-1").2.2.1 5 (by decide)

/-- C3 (amended): all three polling loops use a bounded ~1.5s interval;
the Home and legacy loops stop polling at the first terminal state, and
the summary endpoint is hit exactly once and only in the `done` case;
the `frontend/app/page.tsx` loop also fetches the summary exactly once
on `done` and stops there, but upon `failed` it clears nothing and
keeps polling. -/
theorem polling_until_terminal :
    homePollIntervalMs = 1500 ∧ pagePollIntervalMs = 1500 ∧ legacyPollIntervalMs = 1500 ∧
    (∀ pre rest v pay, (∀ x ∈ pre, respNonTerminal x = true) → v.status = .done →
        (runPoll homePoll (pre ++ (some v, pay) :: rest) homeStartPoll).polling = false ∧
        (runPoll homePoll (pre ++ (some v, pay) :: rest) homeStartPoll).summaryFetches = 1) ∧
    (∀ pre rest v pay, (∀ x ∈ pre, respNonTerminal x = true) → v.status = .failed →
        (runPoll homePoll (pre ++ (some v, pay) :: rest) homeStartPoll).polling = false ∧
        (runPoll homePoll (pre ++ (some v, pay) :: rest) homeStartPoll).summaryFetches = 0) ∧
    (∀ v pay ps, v.status.isTerminal = true → (legacyPoll (some v) pay ps).polling = false) ∧
    (∀ pre rest v pay, (∀ x ∈ pre, respNonTerminal x = true) → v.status = .done →
        (runPoll pagePoll (pre ++ (some v, pay) :: rest) pageRunSuccess).polling = false ∧
        (runPoll pagePoll (pre ++ (some v, pay) :: rest) pageRunSuccess).summaryFetches = 1) ∧
    (∀ v pay ps, (pagePoll (some v) pay ps).polling
        = if v.status = .done then false else ps.polling) := by
  refine ⟨rfl, rfl, rfl, ?_, ?_, ?_, ?_, ?_⟩
  · intro pre rest v pay hpre hv
    obtain ⟨ps1, heq, hp1, hf1⟩ := runPoll_pre homePoll homePoll_nonterminal pre
      ((some v, pay) :: rest) homeStartPoll hpre rfl
    obtain ⟨hpd, hfd⟩ := homePoll_done v pay ps1 hv
    have h2 : runPoll homePoll ((some v, pay) :: rest) ps1
        = runPoll homePoll rest (homePoll (some v) pay ps1) := by
      simp [runPoll, hp1]
    rw [heq, h2, runPoll_stopped homePoll rest _ hpd]
    exact ⟨hpd, by rw [hfd, hf1]; decide⟩
  · intro pre rest v pay hpre hv
    obtain ⟨ps1, heq, hp1, hf1⟩ := runPoll_pre homePoll homePoll_nonterminal pre
      ((some v, pay) :: rest) homeStartPoll hpre rfl
    obtain ⟨hpd, hfd⟩ := homePoll_failed v pay ps1 hv
    have h2 : runPoll homePoll ((some v, pay) :: rest) ps1
        = runPoll homePoll rest (homePoll (some v) pay ps1) := by
      simp [runPoll, hp1]
    rw [heq, h2, runPoll_stopped homePoll rest _ hpd]
    exact ⟨hpd, by rw [hfd, hf1]; decide⟩
  · intro v pay ps hterm
    cases hv : v.status with
    | done => simp [legacyPoll, hv]
    | failed => simp [legacyPoll, hv]
    | queued => rw [hv] at hterm; exact absurd hterm (by decide)
    | running => rw [hv] at hterm; exact absurd hterm (by decide)
  · intro pre rest v pay hpre hv
    obtain ⟨ps1, heq, hp1, hf1⟩ := runPoll_pre pagePoll pagePoll_nonterminal pre
      ((some v, pay) :: rest) pageRunSuccess hpre rfl
    obtain ⟨hpd, hfd⟩ := pagePoll_done v pay ps1 hv
    have h2 : runPoll pagePoll ((some v, pay) :: rest) ps1
        = runPoll pagePoll rest (pagePoll (some v) pay ps1) := by
      simp [runPoll, hp1]
    rw [heq, h2, runPoll_stopped pagePoll rest _ hpd]
    exact ⟨hpd, by rw [hfd, hf1]; decide⟩
  · intro v pay ps
    cases hv : v.status <;> simp [pagePoll, hv]

/-- C3 counterexample: the `page.tsx` loop does not stop upon observing
the terminal `failed` state — its interval stays armed. -/
theorem page_poll_failed_keeps_polling :
    (pagePoll (some { status := JobState.failed, error := none }) none pageRunSuccess).status
      = DisplayStatus.failed ∧
    (pagePoll (some { status := JobState.failed, error := none }) none pageRunSuccess).polling
      = true := by
  refine ⟨rfl, rfl⟩

/-- C3 witness: a one-response run of the Home loop that observes
`done` immediately. -/
theorem polling_until_terminal_witness :
    (runPoll homePoll ([] ++ (some { status := JobState.done, error := none }, some "s") :: [])
        homeStartPoll).polling = false ∧
    (runPoll homePoll ([] ++ (some { status := JobState.done, error := none }, some "s") :: [])
        homeStartPoll).summaryFetches = 1 :=
  polling_until_terminal.2.2.2.1 [] [] { status := JobState.done, error := none } (some "s")
    (by simp) rfl

/-- C6 (amended): the `run` flow of `frontend/app/page.tsx` builds an
input object with exactly one of DOI, URL or upload key set, and a
submission with none of them set is rejected before any job is created;
but the `startJob` multipart branch of `frontend/lib/api.ts` sends both
the `ref` and the uploaded file when both are provided, so mutual
exclusivity does not hold for that request path. -/
theorem input_mutual_exclusivity :
    (∀ (d u : String) (k : Option String) (i : RunInput),
        runInput d u k = some i → inputSetCount i = 1) ∧
    (∀ d u : String, jsTrim d = "" → jsTrim u = "" →
        runInput d u none = none ∧ runInput d u (some "") = none) ∧
    (∀ r f : String, r ≠ "" →
        startJobRequest (some r) (some f)
          = { multipart := true, ref := some r, pdf := some f }) := by
  refine ⟨?_, ?_, ?_⟩
  · intro d u k i h
    by_cases h1 : jsTrim d = ""
    · by_cases h2 : jsTrim u = ""
      · cases k with
        | none => simp [runInput, h1, h2] at h
        | some kk =>
          by_cases h4 : kk = ""
          · simp [runInput, h1, h2, h4] at h
          · simp [runInput, h1, h2, h4] at h
            rw [← h]
            rfl
      · simp [runInput, h1, h2] at h
        rw [← h]
        rfl
    · simp [runInput, h1] at h
      rw [← h]
      rfl
  · intro d u h1 h2
    constructor <;> simp [runInput, h1, h2]
  · intro r f hr
    simp [startJobRequest, hr]

/-- C6 counterexample: a submission with both a reference and an
uploaded file carries two inputs in the multipart request. -/
theorem multipart_carries_two_inputs :
    requestInputCount (startJobRequest (some "10.1038/nphys1170") (some "paper.pdf")) = 2 ∧
    (startJobRequest (some "10.1038/nphys1170") (some "paper.pdf")).ref
      = some "10.1038/nphys1170" ∧
    (startJobRequest (some "10.1038/nphys1170") (some "paper.pdf")).pdf
      = some "paper.pdf" := by
  refine ⟨by decide, by decide, by decide⟩

/-- C6 witness: a DOI-only `run` input has exactly one field set. -/
theorem input_mutual_exclusivity_witness :
    inputSetCount { doi := some "10.1", url := none, s3Key := none } = 1 :=
  input_mutual_exclusivity.1 "10.1" "" none
    { doi := some "10.1", url := none, s3Key := none } (by decide)

/-- C7: a failing pipeline terminates the job in the normal `failed`
state carrying a structured error (kind and message); `getStatus` of
any known job answers with its state and error, never an opaque
failure; and the Home and Summarize clients toast the error message
when a poll observes `failed`. -/
theorem failed_pipeline_surfaced (s : Store) (id : Nat) (j : Job) (c : Collaborators)
    (k m : String) (hj : s.jobs id = some j) (hq : j.state = .queued)
    (hf : pipelineFailure c = some ⟨k, m⟩) :
    (∃ jt, (execute s id c).1.jobs id = some jt ∧ jt.state = .failed ∧
        jt.error = some ⟨k, m⟩) ∧
    getStatus (execute s id c).1 id = .ok { state := .failed, error := some ⟨k, m⟩ } ∧
    (∀ (s2 : Store) (id2 : Nat) (j2 : Job), s2.jobs id2 = some j2 →
        getStatus s2 id2 = .ok { state := j2.state, error := j2.error }) ∧
    (∀ pay ps, m ≠ "" →
        (homePoll (some { status := .failed, error := some ⟨k, m⟩ }) pay ps).toasts
          = ps.toasts ++ ["Failed: " ++ m] ∧
        (summarizePoll (some { status := .failed, error := some ⟨k, m⟩ }) pay ps).toasts
          = ps.toasts ++ ["Failed: " ++ m]) := by
  obtain ⟨_, jt0, hjt0, hcase⟩ := execute_queued s id j c hj hq
  rcases hcase with ⟨e2, he2, hst, herr⟩ | ⟨hnone, _⟩
  · rw [hf] at he2
    injection he2 with he3
    rw [← he3] at herr
    refine ⟨⟨jt0, hjt0, hst, herr⟩, ?_, ?_, ?_⟩
    · simp [getStatus, hjt0, hst, herr]
    · intro s2 id2 j2 hj2
      simp [getStatus, hj2]
    · intro pay ps hm
      constructor <;> simp [homePoll, summarizePoll, failedErrText, hm]
  · rw [hnone] at hf
    exact absurd hf (by simp)

/-- C7 witness: a job whose document resolution fails concretely. -/
theorem failed_pipeline_surfaced_witness :
    (∃ jt, (execute (submit emptyStore).2 0 cResolveFail).1.jobs 0 = some jt ∧
        jt.state = .failed ∧ jt.error = some ⟨"ResolutionError", "bad DOI"⟩) ∧
    getStatus (execute (submit emptyStore).2 0 cResolveFail).1 0
      = .ok { state := .failed, error := some ⟨"ResolutionError", "bad DOI"⟩ } ∧
    (∀ (s2 : Store) (id2 : Nat) (j2 : Job), s2.jobs id2 = some j2 →
        getStatus s2 id2 = .ok { state := j2.state, error := j2.error }) ∧
    (∀ pay ps, ("bad DOI" : String) ≠ "" →
        (homePoll (some { status := .failed, error := some ⟨"ResolutionError", "bad DOI"⟩ })
            pay ps).toasts
          = ps.toasts ++ ["Failed: " ++ "bad DOI"] ∧
        (summarizePoll (some { status := .failed, error := some ⟨"ResolutionError", "bad DOI"⟩ })
            pay ps).toasts
          = ps.toasts ++ ["Failed: " ++ "bad DOI"]) :=
  failed_pipeline_surfaced (submit emptyStore).2 0
    { state := .queued, result := none, error := none } cResolveFail
    "ResolutionError" "bad DOI" rfl rfl rfl

/-- C8: with no account and a stored test count of at least 5, an
`onStart` attempt changes nothing (no `startJob` call, no counters);
below the limit each completed summary increments the persisted test
count by one; consequently a session without an account completes at
most `5 - testCount` further jobs, and at most 5 from a fresh
profile. -/
theorem test_limit_enforced :
    (∀ (s : HomeSession) (b : Bool), s.hasAccount = false → 5 ≤ s.testCount →
        sessionAttempt s b = s) ∧
    (∀ s : HomeSession, s.hasAccount = false → s.testCount < 5 →
        (sessionAttempt s true).testCount = s.testCount + 1 ∧
        (sessionAttempt s true).completions = s.completions + 1 ∧
        (sessionAttempt s true).submissions = s.submissions + 1) ∧
    (∀ (s : HomeSession) (bs : List Bool), s.hasAccount = false →
        (runSession s bs).completions ≤ s.completions + (5 - s.testCount)) ∧
    (∀ bs : List Bool,
        (runSession initialSession bs).completions ≤ 5) := by
  have key : ∀ (bs : List Bool) (s : HomeSession), s.hasAccount = false →
      (runSession s bs).completions ≤ s.completions + (5 - s.testCount) := by
    intro bs
    induction bs with
    | nil =>
      intro s h1
      simp [runSession]
    | cons b bs ih =>
      intro s h1
      simp only [runSession]
      by_cases hb : 5 ≤ s.testCount
      · have hg : (!s.hasAccount && decide (5 ≤ s.testCount)) = true := by
          rw [h1]
          simp [hb]
        have hblock : sessionAttempt s b = s := by
          simp [sessionAttempt, hg]
        rw [hblock]
        exact ih s h1
      · have hg : (!s.hasAccount && decide (5 ≤ s.testCount)) = false := by
          rw [h1]
          simp [hb]
        cases b with
        | true =>
          have hs2 : sessionAttempt s true
              = HomeSession.mk false (s.testCount + 1) (s.submissions + 1) (s.completions + 1) := by
            simp [sessionAttempt, hg, h1, hb]
          rw [hs2]
          have h3 := ih (HomeSession.mk false (s.testCount + 1) (s.submissions + 1) (s.completions + 1)) rfl
          simp only at h3
          omega
        | false =>
          have hs2 : sessionAttempt s false
              = HomeSession.mk false s.testCount (s.submissions + 1) s.completions := by
            simp [sessionAttempt, hg, h1, hb]
          rw [hs2]
          have h3 := ih (HomeSession.mk false s.testCount (s.submissions + 1) s.completions) rfl
          simp only at h3
          omega
  refine ⟨?_, ?_, fun s bs h1 => key bs s h1, ?_⟩
  · intro s b h1 h2
    have hg : (!s.hasAccount && decide (5 ≤ s.testCount)) = true := by
      rw [h1]
      simp [h2]
    simp [sessionAttempt, hg]
  · intro s h1 h2
    have hb : ¬ 5 ≤ s.testCount := by omega
    have hg : (!s.hasAccount && decide (5 ≤ s.testCount)) = false := by
      rw [h1]
      simp [hb]
    refine ⟨?_, ?_, ?_⟩ <;> simp [sessionAttempt, hg, h1, hb]
  · intro bs
    have h3 := key bs initialSession rfl
    simpa [initialSession] using h3

/-- C8 witness: a blocked attempt at the limit and a counted completion
below it. -/
theorem test_limit_enforced_witness :
    sessionAttempt limitSession true = limitSession :=
  test_limit_enforced.1 limitSession true rfl (by decide)

/-- C9: in the Home, Summarize and `page.tsx` polling loops an error
while fetching the job status is caught inside the tick: the client
state (displayed status included) is unchanged and the interval stays
armed, so polling resumes with the next tick. -/
theorem poll_error_ignored :
    (∀ pay ps, homePoll none pay ps = ps) ∧
    (∀ pay ps, summarizePoll none pay ps = ps) ∧
    (∀ pay ps, pagePoll none pay ps = ps) ∧
    (∀ pay rest ps, ps.polling = true →
        runPoll homePoll ((none, pay) :: rest) ps = runPoll homePoll rest ps ∧
        runPoll summarizePoll ((none, pay) :: rest) ps = runPoll summarizePoll rest ps ∧
        runPoll pagePoll ((none, pay) :: rest) ps = runPoll pagePoll rest ps) := by
  refine ⟨fun pay ps => rfl, fun pay ps => rfl, fun pay ps => rfl, ?_⟩
  intro pay rest ps hp
  refine ⟨?_, ?_, ?_⟩ <;> simp [runPoll, hp, homePoll, summarizePoll, pagePoll]

/-- C9 witness: a single failed status fetch in each loop. -/
theorem poll_error_ignored_witness :
    runPoll homePoll [(none, none)] homeStartPoll
      = runPoll homePoll [] homeStartPoll ∧
    runPoll summarizePoll [(none, none)] homeStartPoll
      = runPoll summarizePoll [] homeStartPoll ∧
    runPoll pagePoll [(none, none)] homeStartPoll
      = runPoll pagePoll [] homeStartPoll :=
  poll_error_ignored.2.2.2 none [] homeStartPoll rfl

/-- C10: every list the Summarize component writes to the `history` and
`summaries` localStorage keys is cut to at most 20 entries. -/
theorem persisted_lists_bounded (item : HistoryItem) (prev : List HistoryItem)
    (si : SummaryItem) (sprev : List SummaryItem) (ttl : String)
    (fst : HistoryItem) (rest : List HistoryItem) :
    (historyPersisted item prev).length ≤ 20 ∧
    (summariesPersisted si sprev).length ≤ 20 ∧
    (historyTitlePersisted ttl fst rest).length ≤ 20 := by
  refine ⟨?_, ?_, ?_⟩ <;>
    simp only [historyPersisted, summariesPersisted, historyTitlePersisted,
      List.length_take] <;>
    omega

end LayScience
